import Mathlib

/-!
Verification of the schemini runtime schema-validation engine.

The definitions below are a shallow embedding of the validator core:

* `JsValue` / `JsNumber` model JavaScript runtime values.  Finite doubles are
  modelled as exact rationals; comparisons between doubles are exact, so the
  rational model is faithful for every comparison the code performs.
  `Number.MIN_VALUE` is the subnormal `2 ^ (-1074)`, an exact rational.
* `Issue`, `ValidationError` (a list of issues) and the parse functions are
  translated from `packages/mini-schema/src/types/*.ts` and
  `packages/core/src/types/array.ts` / `packages/core/src/types/base.ts`.
  The core package's own `StringType`/`NumberType`/`ObjectType` sources are
  not part of this snapshot; they are modelled from §4.2–4.3 of the
  specification, which coincides with the mini-schema sources present here
  and with the private fields `to-json-schema.ts` reflects into.
  Human-readable message formatting (locale maps, `errorMap`, per-node custom
  messages) only affects the `message` string of an issue and is not modelled;
  the `message` field below records only messages the parse code itself
  constructs (the unrecognized-keys listing and custom-validator messages).
* Stateful default-value generator functions (`() => T` closures) are modelled
  by explicit state passing: a generator is a function of the number of
  generator invocations made so far, and every parse function threads that
  counter.
* The JSON-Schema bridge is translated from
  `packages/core/src/json-schema/to-json-schema.ts` and
  `packages/core/src/json-schema/from-json-schema.ts`.

Object fields and object shapes are modelled as ordered association lists with
distinct keys, matching JavaScript object insertion order for non-numeric keys.
String length is measured in characters (the sources only exercise it on ASCII
strings, where this agrees with UTF-16 code-unit length).
-/

set_option maxRecDepth 20000

/-- A JavaScript number: NaN, the two infinities, or a finite double modelled
as an exact rational. -/
inductive JsNumber where
  | nan
  | posInf
  | negInf
  | finite (q : ℚ)
deriving DecidableEq, Repr

/-- JavaScript `Number.MIN_VALUE`: the smallest positive double, `2 ^ (-1074)`. -/
def minValueQ : ℚ := mkRat 1 (2 ^ 1074)

namespace JsNumber

/-- JavaScript `Number.isFinite`. -/
def isFinite : JsNumber → Bool
  | .finite _ => true
  | _ => false

/-- JavaScript `Number.isNaN`. -/
def isNaN : JsNumber → Bool
  | .nan => true
  | _ => false

/-- JavaScript `Number.isInteger`. -/
def isInteger : JsNumber → Bool
  | .finite q => q.den == 1
  | _ => false

/-- The JavaScript `<` comparison on numbers (false whenever NaN is involved). -/
def jsLt : JsNumber → JsNumber → Bool
  | .nan, _ => false
  | _, .nan => false
  | .negInf, .negInf => false
  | .negInf, _ => true
  | _, .negInf => false
  | .posInf, _ => false
  | .finite _, .posInf => true
  | .finite a, .finite b => decide (a < b)

/-- JavaScript strict equality `===` on numbers: NaN is not equal to itself. -/
def strictEq : JsNumber → JsNumber → Bool
  | .nan, _ => false
  | _, .nan => false
  | a, b => a == b

end JsNumber

/-- A JavaScript runtime value.  Array and object values are compared by
reference in JavaScript; the equality helpers below treat two array/object
values as never strictly equal, which is correct for the distinct objects a
caller passes into `parse`. -/
inductive JsValue where
  | undefined
  | null
  | bool (b : Bool)
  | num (n : JsNumber)
  | str (s : String)
  | arr (elems : List JsValue)
  | obj (fields : List (String × JsValue))

namespace JsValue

/-- The string produced by the JavaScript `typeof` operator. -/
def typeofStr : JsValue → String
  | .undefined => "undefined"
  | .null => "object"
  | .bool _ => "boolean"
  | .num _ => "number"
  | .str _ => "string"
  | .arr _ => "object"
  | .obj _ => "object"

/-- The `received` name computed by the primitive validators:
`value === null ? 'null' : typeof value`. -/
def receivedName : JsValue → String
  | .null => "null"
  | v => v.typeofStr

/-- The `received` name computed by the object validator:
`value === null ? 'null' : Array.isArray(value) ? 'array' : typeof value`. -/
def receivedNameObj : JsValue → String
  | .null => "null"
  | .arr _ => "array"
  | v => v.typeofStr

/-- JavaScript `String(v)` for the primitive values the literal/enum
validators report.  Decimal rendering of non-integral or non-finite
numbers and of array/object values is not exercised by any claim and is
rendered schematically. -/
def toDisplayString : JsValue → String
  | .undefined => "undefined"
  | .null => "null"
  | .bool true => "true"
  | .bool false => "false"
  | .num (.finite q) => if q.den == 1 then toString q.num else toString q
  | .num .nan => "NaN"
  | .num .posInf => "Infinity"
  | .num .negInf => "-Infinity"
  | .str s => s
  | .arr _ => "array"
  | .obj _ => "[object Object]"

/-- The `received` name computed by the literal and enum validators:
null and undefined by name, every other value via `String(input)`. -/
def receivedNameStr : JsValue → String
  | .null => "null"
  | .undefined => "undefined"
  | v => v.toDisplayString

/-- Whether the value is `undefined`. -/
def isUndefined : JsValue → Bool
  | .undefined => true
  | _ => false

/-- Whether the value is `null`. -/
def isNull : JsValue → Bool
  | .null => true
  | _ => false

/-- JavaScript strict equality `===`, restricted to the primitive values a
literal validator can hold; array/object operands compare unequal (distinct
references). -/
def strictEq : JsValue → JsValue → Bool
  | .undefined, .undefined => true
  | .null, .null => true
  | .bool a, .bool b => a == b
  | .num a, .num b => a.strictEq b
  | .str a, .str b => a == b
  | _, _ => false

/-- The SameValueZero comparison used by `Array.prototype.includes`
(NaN equals NaN); array/object operands compare unequal (distinct
references). -/
def sameValueZero : JsValue → JsValue → Bool
  | .undefined, .undefined => true
  | .null, .null => true
  | .bool a, .bool b => a == b
  | .num a, .num b => a == b
  | .str a, .str b => a == b
  | _, _ => false

end JsValue

/-- One segment of the path at which an issue occurred: an object key or an
array index. -/
inductive PathSeg where
  | key (s : String)
  | idx (n : Nat)
deriving DecidableEq, Repr

/-- The closed set of issue codes, from
`packages/mini-schema/src/errors/types.ts`. -/
inductive IssueCode where
  | invalid_type
  | too_small
  | too_big
  | invalid_string
  | invalid_enum
  | invalid_literal
  | invalid_union
  | unrecognized_keys
  | invalid_arguments
  | invalid_return_type
  | invalid_date
  | custom
deriving DecidableEq, Repr

/-- One validation issue, from `packages/mini-schema/src/errors/types.ts`.
The `options` field of an enum issue carries the enum's raw values. -/
structure Issue where
  code : IssueCode
  path : List PathSeg
  message : Option String := none
  expected : Option String := none
  received : Option String := none
  minimum : Option JsNumber := none
  maximum : Option JsNumber := none
  inclusive : Option Bool := none
  options : Option (List JsValue) := none

/-- An aggregated validation error is its ordered list of issues
(`ValidationError.issues` in `errors/validation-error.ts`). -/
abbrev ValidationError := List Issue

/-- The result of `_parse`: a success value or an aggregated error. -/
abbrev ParseResult := Except ValidationError JsValue

/-- Whether a parse result is a success (`result.success` in the sources). -/
def ParseResult.success : ParseResult → Bool
  | .ok _ => true
  | .error _ => false

/-- The issues of a parse result (empty on success). -/
def ParseResult.issues : ParseResult → List Issue
  | .ok _ => []
  | .error es => es

/-- The JavaScript `\s` character class (white space and line terminators). -/
def isJsSpace (c : Char) : Bool :=
  c == ' ' || c == '\t' || c == '\n' || c == '\r' ||
  c.val == 0x0B || c.val == 0x0C || c.val == 0xA0 || c.val == 0x1680 ||
  (decide (0x2000 ≤ c.val) && decide (c.val ≤ 0x200A)) ||
  c.val == 0x2028 || c.val == 0x2029 ||
  c.val == 0x202F || c.val == 0x205F || c.val == 0x3000 || c.val == 0xFEFF

/-- A character admitted by the `[^\s@]` class of the email pattern. -/
def emailCharOk (c : Char) : Bool := !(isJsSpace c) && !(c == '@')

/-- Matching the email preset `/^[^\s@]+@[^\s@]+\.[^\s@]+$/` from
`packages/mini-schema/src/validators/patterns.ts`: a non-empty run of
`[^\s@]` characters, one `@`, then a tail of `[^\s@]` characters containing
a `.` that is neither its first nor its last character. -/
def emailTest (s : String) : Bool :=
  let cs := s.toList
  let before := cs.takeWhile (fun c => !(c == '@'))
  match cs.dropWhile (fun c => !(c == '@')) with
  | [] => false
  | _ :: t =>
      !before.isEmpty && before.all emailCharOk && t.all emailCharOk &&
        (t.drop 1).dropLast.contains '.'

/-- A hexadecimal digit under the `i` flag of the UUID preset. -/
def uuidHex (c : Char) : Bool :=
  c.isDigit || (decide ('a' ≤ c) && decide (c ≤ 'f')) ||
    (decide ('A' ≤ c) && decide (c ≤ 'F'))

/-- Matching the UUID v4 preset
`/^[0-9a-f]{8}-[0-9a-f]{4}-[1-5][0-9a-f]{3}-[89ab][0-9a-f]{3}-[0-9a-f]{12}$/i`. -/
def uuidTest (s : String) : Bool :=
  match s.splitOn "-" with
  | [p1, p2, p3, p4, p5] =>
      p1.length == 8 && p2.length == 4 && p3.length == 4 && p4.length == 4 &&
      p5.length == 12 &&
      p1.toList.all uuidHex && p2.toList.all uuidHex && p5.toList.all uuidHex &&
      (match p3.toList with
       | c :: rest => decide ('1' ≤ c) && decide (c ≤ '5') && rest.all uuidHex
       | [] => false) &&
      (match p4.toList with
       | c :: rest =>
           (c == '8' || c == '9' || c == 'a' || c == 'b' || c == 'A' || c == 'B') &&
             rest.all uuidHex
       | [] => false)
  | _ => false

/-- Matching the ISO date preset `/^\d{4}-\d{2}-\d{2}$/`. -/
def dateTest (s : String) : Bool :=
  match s.toList with
  | [a, b, c, d, '-', e, f, '-', g, h] => [a, b, c, d, e, f, g, h].all Char.isDigit
  | _ => false

/-- Matching the timezone suffix `(Z|[+-]\d{2}:\d{2})` of the datetime preset. -/
def datetimeTzTest (cs : List Char) : Bool :=
  match cs with
  | ['Z'] => true
  | [sg, a, b, ':', c, d] => (sg == '+' || sg == '-') && [a, b, c, d].all Char.isDigit
  | _ => false

/-- Matching the ISO datetime preset
`/^\d{4}-\d{2}-\d{2}T\d{2}:\d{2}:\d{2}(Z|[+-]\d{2}:\d{2})$/`. -/
def datetimeTest (s : String) : Bool :=
  match s.toList with
  | a :: b :: c :: d :: '-' :: e :: f :: '-' :: g :: h :: 'T' ::
      i :: j :: ':' :: k :: l :: ':' :: m :: n :: rest =>
      [a, b, c, d, e, f, g, h, i, j, k, l, m, n].all Char.isDigit &&
        datetimeTzTest rest
  | _ => false

/-- Matching the Brazilian CEP preset `/^\d{5}-?\d{3}$/`. -/
def cepTest (s : String) : Bool :=
  match s.toList with
  | [a, b, c, d, e, '-', f, g, h] => [a, b, c, d, e, f, g, h].all Char.isDigit
  | [a, b, c, d, e, f, g, h] => [a, b, c, d, e, f, g, h].all Char.isDigit
  | _ => false

/-- A compiled regular expression as the string validator stores it: one of
the repository's pattern presets, or a regex compiled from an arbitrary
source string (`fromSource`).  Matching against an arbitrary source is
outside the model (no claim evaluates such a pattern). -/
inductive Pattern where
  | email
  | uuid
  | date
  | datetime
  | cep
  | fromSource (source : String)
deriving DecidableEq, Repr

namespace Pattern

/-- The `source` property of the compiled regex (what `toJsonSchema` emits). -/
def sourceStr : Pattern → String
  | .email => "^[^\\s@]+@[^\\s@]+\\.[^\\s@]+$"
  | .uuid => "^[0-9a-f]{8}-[0-9a-f]{4}-[1-5][0-9a-f]{3}-[89ab][0-9a-f]{3}-[0-9a-f]{12}$"
  | .date => "^\\d{4}-\\d{2}-\\d{2}$"
  | .datetime => "^\\d{4}-\\d{2}-\\d{2}T\\d{2}:\\d{2}:\\d{2}(Z|[+-]\\d{2}:\\d{2})$"
  | .cep => "^\\d{5}-?\\d{3}$"
  | .fromSource s => s

/-- The `test` method of the compiled regex. -/
def test : Pattern → String → Bool
  | .email, s => emailTest s
  | .uuid, s => uuidTest s
  | .date, s => dateTest s
  | .datetime, s => datetimeTest s
  | .cep, s => cepTest s
  | .fromSource _, _ => false

end Pattern

/-- JavaScript `new RegExp(source)` as used by `fromJsonSchema`: compiling a
preset's source yields a regex with the preset's behaviour for the flag-free
presets.  The UUID preset carries an `i` flag that is not part of `source`,
so its recompilation is not identified with the preset. -/
def regExpFromSource (s : String) : Pattern :=
  if s == Pattern.email.sourceStr then .email
  else if s == Pattern.date.sourceStr then .date
  else if s == Pattern.datetime.sourceStr then .datetime
  else if s == Pattern.cep.sourceStr then .cep
  else .fromSource s

/-- The `format` tag a string validator can carry
(`packages/mini-schema/src/types/string.ts`). -/
inductive StringFormat where
  | email
  | uuid
  | date
  | datetime
  | cep
  | cpf
  | cnpj
deriving DecidableEq, Repr

/-- The literal name of a string format (the TypeScript union value). -/
def StringFormat.name : StringFormat → String
  | .email => "email"
  | .uuid => "uuid"
  | .date => "date"
  | .datetime => "datetime"
  | .cep => "cep"
  | .cpf => "cpf"
  | .cnpj => "cnpj"

/-- One custom validator registered on a string validator. -/
structure CustomValidator where
  validate : String → Bool
  message : Option String := none

/-- Configuration of a string validator (`StringTypeOptions`); the
per-check custom message strings only feed message formatting and are not
modelled. -/
structure StringOptions where
  minLength : Option Nat := none
  maxLength : Option Nat := none
  pattern : Option Pattern := none
  format : Option StringFormat := none
  customValidators : List CustomValidator := []

/-- Configuration of a number validator (`NumberTypeOptions`). -/
structure NumberOptions where
  isInt : Bool := false
  minimum : Option JsNumber := none
  maximum : Option JsNumber := none

/-- Length configuration of an array validator
(`packages/core/src/types/array.ts`). -/
structure ArrayOptions where
  minLength : Option Nat := none
  maxLength : Option Nat := none
  exactLength : Option Nat := none

/-- The unknown-key policy of an object validator. -/
inductive UnknownKeys where
  | strip
  | strict
  | passthrough
deriving DecidableEq, Repr

/-- The default of a `DefaultType` wrapper: a fixed value, or a zero-argument
generator function, modelled as a function of the number of generator
invocations made so far. -/
inductive DefaultValue where
  | fixed (v : JsValue)
  | gen (f : Nat → JsValue)

/-- A validator node.  Constructors correspond one-to-one to the validator
classes: `StringType`, `NumberType`, `BooleanType`, `LiteralType`,
`EnumType`, `ObjectType` (shape plus unknown-key policy), `ArrayType`
(element plus length options), `UnionType`, and the modifier wrappers
`OptionalType`, `NullableType`, `NullishType`, `DefaultType`,
`TransformType`. -/
inductive Schema where
  | string (opts : StringOptions)
  | number (opts : NumberOptions)
  | boolean
  | literal (value : JsValue)
  | enum (options : List JsValue)
  | object (shape : List (String × Schema)) (unknownKeys : UnknownKeys)
  | array (element : Schema) (opts : ArrayOptions)
  | union (options : List Schema)
  | optional (inner : Schema)
  | nullable (inner : Schema)
  | nullish (inner : Schema)
  | withDefault (inner : Schema) (defaultValue : DefaultValue)
  | transform (inner : Schema) (fn : JsValue → JsValue)

namespace StringOptions

/-- `StringType.min`: clone with the new minimum length (replacing any
previous one). -/
def min (o : StringOptions) (len : Nat) : StringOptions :=
  { o with minLength := some len }

/-- `StringType.max`: clone with the new maximum length. -/
def max (o : StringOptions) (len : Nat) : StringOptions :=
  { o with maxLength := some len }

/-- `StringType.length`: sugar for `min` then `max` with the same value. -/
def length (o : StringOptions) (len : Nat) : StringOptions :=
  (o.min len).max len

/-- `StringType.pattern`: clone with the new pattern. -/
def withPattern (o : StringOptions) (pt : Pattern) : StringOptions :=
  { o with pattern := some pt }

/-- `StringType.email`: the email pattern preset plus the format tag. -/
def email (o : StringOptions) : StringOptions :=
  { o.withPattern .email with format := some .email }

/-- `StringType.uuid`. -/
def uuid (o : StringOptions) : StringOptions :=
  { o.withPattern .uuid with format := some .uuid }

/-- `StringType.date`. -/
def date (o : StringOptions) : StringOptions :=
  { o.withPattern .date with format := some .date }

/-- `StringType.datetime`. -/
def datetime (o : StringOptions) : StringOptions :=
  { o.withPattern .datetime with format := some .datetime }

/-- `StringType.refine`: append a custom validator. -/
def refine (o : StringOptions) (cv : CustomValidator) : StringOptions :=
  { o with customValidators := o.customValidators ++ [cv] }

end StringOptions

namespace NumberOptions

/-- `NumberType.int`. -/
def int (o : NumberOptions) : NumberOptions := { o with isInt := true }

/-- `NumberType.min` (inclusive). -/
def min (o : NumberOptions) (value : JsNumber) : NumberOptions :=
  { o with minimum := some value }

/-- `NumberType.max` (inclusive). -/
def max (o : NumberOptions) (value : JsNumber) : NumberOptions :=
  { o with maximum := some value }

/-- `NumberType.positive`: sets the minimum to `Number.MIN_VALUE`. -/
def positive (o : NumberOptions) : NumberOptions :=
  { o with minimum := some (.finite minValueQ) }

/-- `NumberType.negative`: sets the maximum to `-Number.MIN_VALUE`. -/
def negative (o : NumberOptions) : NumberOptions :=
  { o with maximum := some (.finite (-minValueQ)) }

/-- `NumberType.nonnegative`: sugar for `min 0`. -/
def nonnegative (o : NumberOptions) : NumberOptions := o.min (.finite 0)

end NumberOptions

namespace ArrayOptions

/-- `ArrayType.min`. -/
def min (o : ArrayOptions) (len : Nat) : ArrayOptions :=
  { o with minLength := some len }

/-- `ArrayType.max`. -/
def max (o : ArrayOptions) (len : Nat) : ArrayOptions :=
  { o with maxLength := some len }

/-- `ArrayType.length`: an exact length constraint. -/
def length (o : ArrayOptions) (len : Nat) : ArrayOptions :=
  { o with exactLength := some len }

end ArrayOptions

/-- Look a key up in an input object (`input[key]`): `undefined` when the key
is absent. -/
def objGet (fields : List (String × JsValue)) (key : String) : JsValue :=
  match fields.find? (fun kv => kv.1 == key) with
  | some kv => kv.2
  | none => .undefined

/-- The input keys not present in the shape, in input-key order
(`Object.keys(input).filter((k) => !shapeKeys.has(k))`). -/
def unknownKeysOf (shape : List (String × Schema))
    (fields : List (String × JsValue)) : List String :=
  (fields.map Prod.fst).filter (fun k => !((shape.map Prod.fst).contains k))

/-- The min-length check of `StringType._parse`. -/
def stringMinIssue? (o : StringOptions) (s : String) (p : List PathSeg) :
    Option Issue :=
  match o.minLength with
  | some m =>
      if s.length < m then
        some { code := .too_small, path := p, minimum := some (.finite (m : ℚ)),
               expected := some "string" }
      else none
  | none => none

/-- The max-length check of `StringType._parse`. -/
def stringMaxIssue? (o : StringOptions) (s : String) (p : List PathSeg) :
    Option Issue :=
  match o.maxLength with
  | some m =>
      if s.length > m then
        some { code := .too_big, path := p, maximum := some (.finite (m : ℚ)),
               expected := some "string" }
      else none
  | none => none

/-- The pattern check of `StringType._parse`; `expected` is the format tag or
the generic name `pattern`. -/
def stringPatternIssue? (o : StringOptions) (s : String) (p : List PathSeg) :
    Option Issue :=
  match o.pattern with
  | some pt =>
      if !(pt.test s) then
        some { code := .invalid_string, path := p,
               expected := some ((o.format.map StringFormat.name).getD "pattern") }
      else none
  | none => none

/-- The custom-validator loop of `StringType._parse`: first failure wins. -/
def stringCustomIssue? (cvs : List CustomValidator) (s : String)
    (p : List PathSeg) : Option Issue :=
  match cvs with
  | [] => none
  | cv :: rest =>
      if !(cv.validate s) then
        some { code := .custom, path := p, message := cv.message }
      else stringCustomIssue? rest s p

/-- `StringType._parse`. -/
def parseString (o : StringOptions) (v : JsValue) (p : List PathSeg) :
    ParseResult :=
  match v with
  | .str s =>
      match stringMinIssue? o s p with
      | some i => .error [i]
      | none =>
          match stringMaxIssue? o s p with
          | some i => .error [i]
          | none =>
              match stringPatternIssue? o s p with
              | some i => .error [i]
              | none =>
                  match stringCustomIssue? o.customValidators s p with
                  | some i => .error [i]
                  | none => .ok (.str s)
  | v =>
      .error [{ code := .invalid_type, path := p, expected := some "string",
                received := some v.receivedName }]

/-- The integer check of `NumberType._parse`. -/
def numberIntIssue? (o : NumberOptions) (n : JsNumber) (p : List PathSeg) :
    Option Issue :=
  if o.isInt && !n.isInteger then
    some { code := .invalid_type, path := p, expected := some "integer",
           received := some "float" }
  else none

/-- The inclusive-minimum check of `NumberType._parse` (`value < minimum`). -/
def numberMinIssue? (o : NumberOptions) (n : JsNumber) (p : List PathSeg) :
    Option Issue :=
  match o.minimum with
  | some m =>
      if n.jsLt m then
        some { code := .too_small, path := p, minimum := some m,
               expected := some "number" }
      else none
  | none => none

/-- The inclusive-maximum check of `NumberType._parse` (`value > maximum`). -/
def numberMaxIssue? (o : NumberOptions) (n : JsNumber) (p : List PathSeg) :
    Option Issue :=
  match o.maximum with
  | some m =>
      if m.jsLt n then
        some { code := .too_big, path := p, maximum := some m,
               expected := some "number" }
      else none
  | none => none

/-- `NumberType._parse`. -/
def parseNumber (o : NumberOptions) (v : JsValue) (p : List PathSeg) :
    ParseResult :=
  match v with
  | .num n =>
      if n.isNaN || !n.isFinite then
        .error [{ code := .invalid_type, path := p, expected := some "number",
                  received := some "number" }]
      else
        match numberIntIssue? o n p with
        | some i => .error [i]
        | none =>
            match numberMinIssue? o n p with
            | some i => .error [i]
            | none =>
                match numberMaxIssue? o n p with
                | some i => .error [i]
                | none => .ok (.num n)
  | v =>
      .error [{ code := .invalid_type, path := p, expected := some "number",
                received := some v.receivedName }]

/-- `BooleanType._parse`. -/
def parseBoolean (v : JsValue) (p : List PathSeg) : ParseResult :=
  match v with
  | .bool b => .ok (.bool b)
  | v =>
      .error [{ code := .invalid_type, path := p, expected := some "boolean",
                received := some v.receivedName }]

/-- `LiteralType._parse` (strict `===` comparison). -/
def parseLiteral (lv : JsValue) (v : JsValue) (p : List PathSeg) : ParseResult :=
  if v.strictEq lv then .ok v
  else
    .error [{ code := .invalid_literal, path := p,
              expected := some lv.toDisplayString,
              received := some v.receivedNameStr }]

/-- `EnumType._parse` (`options.includes(input)`). -/
def parseEnum (os : List JsValue) (v : JsValue) (p : List PathSeg) :
    ParseResult :=
  if os.any (fun o => o.sameValueZero v) then .ok v
  else
    .error [{ code := .invalid_enum, path := p, options := some os,
              received := some v.receivedNameStr }]

/-- The max length check of `ArrayType._parse`. -/
def arrayMaxIssue? (o : ArrayOptions) (len : Nat) (p : List PathSeg) :
    Option Issue :=
  match o.maxLength with
  | some n =>
      if len > n then
        some { code := .too_big, path := p, maximum := some (.finite (n : ℚ)),
               inclusive := some true, expected := some "array" }
      else none
  | none => none

/-- The min/max length checks of `ArrayType._parse`. -/
def arrayMinMaxIssue? (o : ArrayOptions) (len : Nat) (p : List PathSeg) :
    Option Issue :=
  match o.minLength with
  | some n =>
      if len < n then
        some { code := .too_small, path := p, minimum := some (.finite (n : ℚ)),
               inclusive := some true, expected := some "array" }
      else arrayMaxIssue? o len p
  | none => arrayMaxIssue? o len p

/-- The length checks of `ArrayType._parse`, in source order: exact length
(reported as an inclusive `too_small` with the exact length as minimum),
then minimum, then maximum. -/
def arrayLengthIssue? (o : ArrayOptions) (len : Nat) (p : List PathSeg) :
    Option Issue :=
  match o.exactLength with
  | some n =>
      if len ≠ n then
        some { code := .too_small, path := p, minimum := some (.finite (n : ℚ)),
               inclusive := some true, expected := some "array" }
      else arrayMinMaxIssue? o len p
  | none => arrayMinMaxIssue? o len p

/-- The element loop of `ArrayType._parse`: parse every element at the path
extended by its index, collect the successes in order and the failures'
issues in order (no short-circuit), threading the generator counter. -/
def parseElemsWith (pv : JsValue → List PathSeg → Nat → ParseResult × Nat) :
    List JsValue → List PathSeg → Nat → Nat →
    List JsValue × List Issue × Nat
  | [], _, _, st => ([], [], st)
  | x :: xs, p, i, st =>
      match pv x (p ++ [.idx i]) st with
      | (.ok d, st') =>
          let r := parseElemsWith pv xs p (i + 1) st'
          (d :: r.1, r.2.1, r.2.2)
      | (.error es, st') =>
          let r := parseElemsWith pv xs p (i + 1) st'
          (r.1, es ++ r.2.1, r.2.2)

/-- The tail of `ObjectType._parse` after the field loop: the unknown-key
policy, then the merge of the collected field errors. -/
def finishObject (shape : List (String × Schema)) (uk : UnknownKeys)
    (fields result : List (String × JsValue)) (errors : List Issue)
    (p : List PathSeg) : ParseResult :=
  match uk with
  | .strict =>
      if !(unknownKeysOf shape fields).isEmpty then
        .error [{ code := .unrecognized_keys, path := p,
                  message := some ("Unrecognized keys: " ++
                    String.intercalate ", " (unknownKeysOf shape fields)) }]
      else if !errors.isEmpty then .error errors
      else .ok (.obj result)
  | .passthrough =>
      if !errors.isEmpty then .error errors
      else .ok (.obj (result ++
        (unknownKeysOf shape fields).map (fun k => (k, objGet fields k))))
  | .strip =>
      if !errors.isEmpty then .error errors else .ok (.obj result)

mutual

/-- `_parse` of every validator kind, dispatching on the node: takes the raw
value, the context path and the generator counter, and returns the result
with the updated counter. -/
def parseVal : Schema → JsValue → List PathSeg → Nat → ParseResult × Nat
  | .string o, v, p, st => (parseString o v p, st)
  | .number o, v, p, st => (parseNumber o v p, st)
  | .boolean, v, p, st => (parseBoolean v p, st)
  | .literal lv, v, p, st => (parseLiteral lv v p, st)
  | .enum os, v, p, st => (parseEnum os v p, st)
  | .object shape uk, v, p, st =>
      match v with
      | .obj fields =>
          let r := parseFields shape fields p st
          (finishObject shape uk fields r.1 r.2.1 p, r.2.2)
      | v =>
          (.error [{ code := .invalid_type, path := p, expected := some "object",
                     received := some v.receivedNameObj }], st)
  | .array el o, v, p, st =>
      match v with
      | .arr items =>
          match arrayLengthIssue? o items.length p with
          | some i => (.error [i], st)
          | none =>
              let r := parseElemsWith (parseVal el) items p 0 st
              (if r.2.1.isEmpty then .ok (.arr r.1) else .error r.2.1, r.2.2)
      | v =>
          (.error [{ code := .invalid_type, path := p, expected := some "array",
                     received := some v.receivedName }], st)
  | .union os, v, p, st => parseUnionList os v p st
  | .optional inner, v, p, st =>
      if v.isUndefined then (.ok .undefined, st) else parseVal inner v p st
  | .nullable inner, v, p, st =>
      if v.isNull then (.ok .null, st) else parseVal inner v p st
  | .nullish inner, v, p, st =>
      if v.isUndefined || v.isNull then (.ok v, st) else parseVal inner v p st
  | .withDefault inner dv, v, p, st =>
      if v.isUndefined then
        match dv with
        | .fixed d => (.ok d, st)
        | .gen f => (.ok (f st), st + 1)
      else parseVal inner v p st
  | .transform inner fn, v, p, st =>
      match parseVal inner v p st with
      | (.ok d, st') => (.ok (fn d), st')
      | r => r

/-- The field loop of `ObjectType._parse`: parse each shape field against the
corresponding input value at the path extended by the field name, writing a
non-`undefined` success into the output and collecting every failure's
issues (no short-circuit). -/
def parseFields : List (String × Schema) → List (String × JsValue) →
    List PathSeg → Nat → List (String × JsValue) × List Issue × Nat
  | [], _, _, st => ([], [], st)
  | (key, sch) :: rest, fields, p, st =>
      match parseVal sch (objGet fields key) (p ++ [.key key]) st with
      | (.ok d, st') =>
          let r := parseFields rest fields p st'
          (if d.isUndefined then r.1 else (key, d) :: r.1, r.2.1, r.2.2)
      | (.error es, st') =>
          let r := parseFields rest fields p st'
          (r.1, es ++ r.2.1, r.2.2)

/-- `UnionType._parse`: try each candidate in order against the original
value and path; the first success wins outright, failures are discarded;
when all fail, a single generic `invalid_union` issue at the current path. -/
def parseUnionList : List Schema → JsValue → List PathSeg → Nat →
    ParseResult × Nat
  | [], _, p, st => (.error [{ code := .invalid_union, path := p }], st)
  | s :: rest, v, p, st =>
      match parseVal s v p st with
      | (.ok d, st') => (.ok d, st')
      | (.error _, st') => parseUnionList rest v p st'

end

/-- `safeParse`: a fresh context with the empty path (and generator counter
zero for a first call). -/
def Schema.safeParse (s : Schema) (v : JsValue) : ParseResult :=
  (parseVal s v [] 0).1

/-- `safeParse` of a repeated call, resuming the generator counter of the
previous call (explicit-state model of the generator closures). -/
def Schema.safeParseFrom (s : Schema) (v : JsValue) (st : Nat) :
    ParseResult × Nat :=
  parseVal s v [] st

/-- The seven JSON Schema type names (`JsonSchemaType` in
`packages/core/src/json-schema/types.ts`). -/
inductive JsonSchemaType where
  | string
  | number
  | integer
  | boolean
  | object
  | array
  | null
deriving DecidableEq, Repr

/-- The `type` keyword of a JSON Schema document: a single type name or an
array of type names. -/
inductive JsonTypeVal where
  | single (t : JsonSchemaType)
  | list (ts : List JsonSchemaType)
deriving DecidableEq, Repr

/-- The keywords of a JSON Schema document that the bridge reads or writes
(`pattern` holds a regex source string).  Keywords of the interchange format
that the bridge never touches (`exclusiveMinimum`, `allOf`, `$ref`, the meta
keywords `$schema`/`$id`/`title`/`description`, ...) are omitted. -/
structure JsonSchemaBase (σ : Type) where
  typ? : Option JsonTypeVal := none
  const? : Option JsValue := none
  enum? : Option (List JsValue) := none
  minLength? : Option Nat := none
  maxLength? : Option Nat := none
  pattern? : Option String := none
  format? : Option String := none
  minimum? : Option JsNumber := none
  maximum? : Option JsNumber := none
  minItems? : Option Nat := none
  maxItems? : Option Nat := none
  required? : Option (List String) := none
  default? : Option JsValue := none
  items? : Option σ := none
  properties? : Option (List (String × σ)) := none
  anyOf? : Option (List σ) := none
  oneOf? : Option (List σ) := none

/-- A JSON Schema document. -/
inductive JsonSchema where
  | mk (b : JsonSchemaBase JsonSchema)

/-- The keyword record of a document. -/
def JsonSchema.base : JsonSchema → JsonSchemaBase JsonSchema
  | .mk b => b

/-- The JSON Schema `format` emitted for a string validator's format tag:
only the four formats of the `convertStringType` switch are emitted. -/
def StringFormat.toJsonFormat : StringFormat → Option String
  | .email => some "email"
  | .uuid => some "uuid"
  | .date => some "date"
  | .datetime => some "date-time"
  | .cep => none
  | .cpf => none
  | .cnpj => none

/-- `convertStringType` of `to-json-schema.ts`. -/
def convertStringType (o : StringOptions) : JsonSchema :=
  .mk { typ? := some (.single .string),
        minLength? := o.minLength,
        maxLength? := o.maxLength,
        pattern? := o.pattern.map Pattern.sourceStr,
        format? := o.format.bind StringFormat.toJsonFormat }

/-- `convertNumberType` of `to-json-schema.ts`. -/
def convertNumberType (o : NumberOptions) : JsonSchema :=
  .mk { typ? := some (.single (if o.isInt then .integer else .number)),
        minimum? := o.minimum,
        maximum? := o.maximum }

/-- `addNullToType` of `to-json-schema.ts`: when the inner mapping has a
`type` keyword, a fresh document whose `type` is the inner types plus
`null`, copying over exactly `minLength`, `maxLength`, `pattern`, `format`,
`minimum`, `maximum`, `enum` and `const`; otherwise the
`anyOf: [inner, {type: null}]` fallback. -/
def addNullToType (inner : JsonSchema) : JsonSchema :=
  match inner.base.typ? with
  | some tv =>
      let baseTypes := match tv with
        | .single t => [t]
        | .list ts => ts
      let newTypes := baseTypes ++ [JsonSchemaType.null]
      .mk { typ? := some (.list newTypes),
            minLength? := inner.base.minLength?,
            maxLength? := inner.base.maxLength?,
            pattern? := inner.base.pattern?,
            format? := inner.base.format?,
            minimum? := inner.base.minimum?,
            maximum? := inner.base.maximum?,
            enum? := inner.base.enum?,
            const? := inner.base.const? }
  | none => .mk { anyOf? := some [inner, .mk { typ? := some (.single .null) }] }

mutual

/-- `convertSchema` of `to-json-schema.ts`: the switch over the validator
node's kind (modifier wrappers first). -/
def convertSchema : Schema → JsonSchema
  | .optional inner => convertSchema inner
  | .nullable inner => addNullToType (convertSchema inner)
  | .nullish inner => addNullToType (convertSchema inner)
  | .withDefault inner dv =>
      let r := convertSchema inner
      match dv with
      | .fixed v => .mk { r.base with default? := some v }
      | .gen _ => r
  | .transform inner _ => convertSchema inner
  | .string o => convertStringType o
  | .number o => convertNumberType o
  | .boolean => .mk { typ? := some (.single .boolean) }
  | .literal v => .mk { const? := some v }
  | .enum os => .mk { enum? := some os }
  | .object shape _ =>
      let pr := convertProps shape
      .mk { typ? := some (.single .object),
            properties? := some pr.1,
            required? := if pr.2.isEmpty then none else some pr.2 }
  | .array el o =>
      .mk { typ? := some (.single .array),
            items? := some (convertSchema el),
            minItems? := o.minLength,
            maxItems? := o.maxLength }
  | .union os => .mk { anyOf? := some (convertSchemaList os) }

/-- The shape walk of `convertObjectType`: converted properties in shape
order, and the `required` list of the fields that are neither
optional-wrappers nor default-wrappers; a fixed default value is copied into
the property's `default`. -/
def convertProps : List (String × Schema) →
    List (String × JsonSchema) × List String
  | [] => ([], [])
  | (key, sch) :: rest =>
      let conv := convertSchema sch
      let conv := match sch with
        | .withDefault _ (.fixed v) => JsonSchema.mk { conv.base with default? := some v }
        | _ => conv
      let r := convertProps rest
      let req := match sch with
        | .optional _ => r.2
        | .withDefault _ _ => r.2
        | _ => key :: r.2
      ((key, conv) :: r.1, req)

/-- `convertUnionType`: the mapped candidates, in order. -/
def convertSchemaList : List Schema → List JsonSchema
  | [] => []
  | s :: rest => convertSchema s :: convertSchemaList rest

end

/-- `toJsonSchema` with default options: the options only attach the meta
keywords `$schema`, `$id`, `title` and `description`, none of which is
modelled (or read back by `fromJsonSchema`). -/
def toJsonSchema (s : Schema) : JsonSchema := convertSchema s

/-- `convertToStringType` of `from-json-schema.ts`: min, max, pattern
(recompiled from its source), then the format switch re-applies the matching
preset. -/
def jsonToStringType (minl maxl : Option Nat) (pat fmt : Option String) :
    StringOptions :=
  let r : StringOptions := {}
  let r := match minl with
    | some m => r.min m
    | none => r
  let r := match maxl with
    | some m => r.max m
    | none => r
  let r := match pat with
    | some src => r.withPattern (regExpFromSource src)
    | none => r
  match fmt with
  | some "email" => r.email
  | some "uuid" => r.uuid
  | some "date" => r.date
  | some "date-time" => r.datetime
  | _ => r

/-- `convertToNumberType` of `from-json-schema.ts`. -/
def jsonToNumberType (mini maxi : Option JsNumber) (isInteger : Bool) :
    NumberOptions :=
  let r : NumberOptions := {}
  let r := if isInteger then r.int else r
  let r := match mini with
    | some m => r.min m
    | none => r
  match maxi with
  | some m => r.max m
  | none => r

/-- The length constraints of `convertToArrayType`. -/
def jsonToArrayOptions (minit maxit : Option Nat) : ArrayOptions :=
  let r : ArrayOptions := {}
  let r := match minit with
    | some m => r.min m
    | none => r
  match maxit with
  | some m => r.max m
  | none => r

/-- `handleSingleType` of `from-json-schema.ts`: dispatch on a single `type`
name.  The element validator and the object shape are converted once by the
caller and passed in (the source converts them inside the `array`/`object`
branches; the conversion is pure, so the result is identical). -/
def handleSingleType (t : JsonSchemaType) (minl maxl : Option Nat)
    (pat fmt : Option String) (mini maxi : Option JsNumber)
    (itemSchema : Schema) (minit maxit : Option Nat)
    (shape : List (String × Schema)) : Schema :=
  match t with
  | .string => .string (jsonToStringType minl maxl pat fmt)
  | .number => .number (jsonToNumberType mini maxi false)
  | .integer => .number (jsonToNumberType mini maxi true)
  | .boolean => .boolean
  | .object => .object shape .strip
  | .array => .array itemSchema (jsonToArrayOptions minit maxit)
  | .null => .literal .null

/-- `handleArrayType` of `from-json-schema.ts`: a `type` array maps its
non-null entries (one entry directly, several as a union) and wraps in
nullable iff `null` was among the entries. -/
def handleArrayType (ts : List JsonSchemaType) (minl maxl : Option Nat)
    (pat fmt : Option String) (mini maxi : Option JsNumber)
    (itemSchema : Schema) (minit maxit : Option Nat)
    (shape : List (String × Schema)) : Schema :=
  match ts.filter (fun t => !(t == JsonSchemaType.null)) with
  | [] => .literal .null
  | [t] =>
      let innerSchema := handleSingleType t minl maxl pat fmt mini maxi
        itemSchema minit maxit shape
      if ts.contains JsonSchemaType.null then .nullable innerSchema
      else innerSchema
  | t1 :: t2 :: rest =>
      let schemas := (t1 :: t2 :: rest).map fun t =>
        handleSingleType t minl maxl pat fmt mini maxi itemSchema minit
          maxit shape
      if ts.contains JsonSchemaType.null then .nullable (.union schemas)
      else .union schemas

mutual

/-- `fromJsonSchema` of `from-json-schema.ts`: `const`, then `enum`, then
`anyOf`, then `oneOf`, then the `type` keyword (no type at all falls back to
a permissive string validator). -/
def fromJsonSchema : JsonSchema → Schema
  | .mk ⟨typ, cst, enm, minl, maxl, pat, fmt, mini, maxi, minit, maxit,
      req, _dflt, items, props, anyo, oneo⟩ =>
      match cst with
      | some c => .literal c
      | none =>
      match enm with
      | some vs => .enum vs
      | none =>
      match anyo with
      | some ss => .union (fromJsonSchemaList ss)
      | none =>
      match oneo with
      | some ss => .union (fromJsonSchemaList ss)
      | none =>
        let itemSchema : Schema := match items with
          | some it => fromJsonSchema it
          | none => .string {}
        let shape : List (String × Schema) := match props with
          | some ps => fromProps ps (req.getD [])
          | none => []
        match typ with
        | none => .string {}
        | some (.list ts) =>
            handleArrayType ts minl maxl pat fmt mini maxi itemSchema
              minit maxit shape
        | some (.single t) =>
            handleSingleType t minl maxl pat fmt mini maxi itemSchema
              minit maxit shape

/-- The recursive mapping of a list of branch documents. -/
def fromJsonSchemaList : List JsonSchema → List Schema
  | [] => []
  | j :: rest => fromJsonSchema j :: fromJsonSchemaList rest

/-- The `properties` walk of `convertToObjectType`: each field is mapped
recursively, wrapped in optional unless named in `required`, and a present
`default` is copied through (as a fixed default). -/
def fromProps : List (String × JsonSchema) → List String →
    List (String × Schema)
  | [], _ => []
  | (key, pj) :: rest, reqList =>
      let propType := fromJsonSchema pj
      let propType := if reqList.contains key then propType
        else .optional propType
      let propType := match pj.base.default? with
        | some dv => .withDefault propType (.fixed dv)
        | none => propType
      (key, propType) :: fromProps rest reqList

end

/-! General invariants of the parse protocol: every failing parse returns a
non-empty list of issues, each located at or below the path of the failing
call (§3 of the specification: the aggregated error is non-empty and paths
locate values within the original input). -/

theorem stringMinIssue?_path {o : StringOptions} {s p i}
    (h : stringMinIssue? o s p = some i) : i.path = p := by
  unfold stringMinIssue? at h
  split at h
  · split at h
    · cases h; rfl
    · cases h
  · cases h

theorem stringMaxIssue?_path {o : StringOptions} {s p i}
    (h : stringMaxIssue? o s p = some i) : i.path = p := by
  unfold stringMaxIssue? at h
  split at h
  · split at h
    · cases h; rfl
    · cases h
  · cases h

theorem stringPatternIssue?_path {o : StringOptions} {s p i}
    (h : stringPatternIssue? o s p = some i) : i.path = p := by
  unfold stringPatternIssue? at h
  split at h
  · split at h
    · cases h; rfl
    · cases h
  · cases h

theorem stringCustomIssue?_path {cvs : List CustomValidator} {s p i}
    (h : stringCustomIssue? cvs s p = some i) : i.path = p := by
  induction cvs with
  | nil => cases h
  | cons cv rest ih =>
      unfold stringCustomIssue? at h
      split at h
      · cases h; rfl
      · exact ih h

theorem numberIntIssue?_path {o : NumberOptions} {n p i}
    (h : numberIntIssue? o n p = some i) : i.path = p := by
  unfold numberIntIssue? at h
  split at h
  · cases h; rfl
  · cases h

theorem numberMinIssue?_path {o : NumberOptions} {n p i}
    (h : numberMinIssue? o n p = some i) : i.path = p := by
  unfold numberMinIssue? at h
  split at h
  · split at h
    · cases h; rfl
    · cases h
  · cases h

theorem numberMaxIssue?_path {o : NumberOptions} {n p i}
    (h : numberMaxIssue? o n p = some i) : i.path = p := by
  unfold numberMaxIssue? at h
  split at h
  · split at h
    · cases h; rfl
    · cases h
  · cases h

theorem arrayMaxIssue?_path {o : ArrayOptions} {len p i}
    (h : arrayMaxIssue? o len p = some i) : i.path = p := by
  unfold arrayMaxIssue? at h
  split at h
  · split at h
    · cases h; rfl
    · cases h
  · cases h

theorem arrayMinMaxIssue?_path {o : ArrayOptions} {len p i}
    (h : arrayMinMaxIssue? o len p = some i) : i.path = p := by
  unfold arrayMinMaxIssue? at h
  split at h
  · split at h
    · cases h; rfl
    · exact arrayMaxIssue?_path h
  · exact arrayMaxIssue?_path h

theorem arrayLengthIssue?_path {o : ArrayOptions} {len p i}
    (h : arrayLengthIssue? o len p = some i) : i.path = p := by
  unfold arrayLengthIssue? at h
  split at h
  · split at h
    · cases h; rfl
    · exact arrayMinMaxIssue?_path h
  · exact arrayMinMaxIssue?_path h

theorem parseString_error_paths {o v p es}
    (h : parseString o v p = .error es) :
    es ≠ [] ∧ ∀ i ∈ es, i.path = p := by
  unfold parseString at h
  split at h
  · split at h
    · next i heq =>
        cases h
        exact ⟨by simp, by simpa using stringMinIssue?_path heq⟩
    · split at h
      · next i heq =>
          cases h
          exact ⟨by simp, by simpa using stringMaxIssue?_path heq⟩
      · split at h
        · next i heq =>
            cases h
            exact ⟨by simp, by simpa using stringPatternIssue?_path heq⟩
        · split at h
          · next i heq =>
              cases h
              exact ⟨by simp, by simpa using stringCustomIssue?_path heq⟩
          · cases h
  · cases h
    exact ⟨by simp, by simp⟩

theorem parseNumber_error_paths {o v p es}
    (h : parseNumber o v p = .error es) :
    es ≠ [] ∧ ∀ i ∈ es, i.path = p := by
  unfold parseNumber at h
  split at h
  · split at h
    · cases h
      exact ⟨by simp, by simp⟩
    · split at h
      · next i heq =>
          cases h
          exact ⟨by simp, by simpa using numberIntIssue?_path heq⟩
      · split at h
        · next i heq =>
            cases h
            exact ⟨by simp, by simpa using numberMinIssue?_path heq⟩
        · split at h
          · next i heq =>
              cases h
              exact ⟨by simp, by simpa using numberMaxIssue?_path heq⟩
          · cases h
  · cases h
    exact ⟨by simp, by simp⟩

theorem parseBoolean_error_paths {v p es}
    (h : parseBoolean v p = .error es) :
    es ≠ [] ∧ ∀ i ∈ es, i.path = p := by
  unfold parseBoolean at h
  split at h
  · cases h
  · cases h
    exact ⟨by simp, by simp⟩

theorem parseLiteral_error_paths {lv v p es}
    (h : parseLiteral lv v p = .error es) :
    es ≠ [] ∧ ∀ i ∈ es, i.path = p := by
  unfold parseLiteral at h
  split at h
  · cases h
  · cases h
    exact ⟨by simp, by simp⟩

theorem parseEnum_error_paths {os v p es}
    (h : parseEnum os v p = .error es) :
    es ≠ [] ∧ ∀ i ∈ es, i.path = p := by
  unfold parseEnum at h
  split at h
  · cases h
  · cases h
    exact ⟨by simp, by simp⟩

theorem finishObject_error {shape uk fields result errors p es}
    (h : finishObject shape uk fields result errors p = .error es) :
    (es ≠ [] ∧ ∀ i ∈ es, i.path = p) ∨ (es = errors ∧ errors ≠ []) := by
  unfold finishObject at h
  rcases uk with _ | _ | _ <;> simp only at h
  case strip =>
    split at h
    · next hne =>
        cases h
        exact .inr ⟨rfl, by simpa using hne⟩
    · cases h
  case strict =>
    split at h
    · cases h
      exact .inl ⟨by simp, by simp⟩
    · split at h
      · next _ hne =>
          cases h
          exact .inr ⟨rfl, by simpa using hne⟩
      · cases h
  case passthrough =>
    split at h
    · next hne =>
        cases h
        exact .inr ⟨rfl, by simpa using hne⟩
    · cases h

theorem parseElemsWith_error_paths
    {pv : JsValue → List PathSeg → Nat → ParseResult × Nat}
    (hpv : ∀ x pp st es st2, pv x pp st = (.error es, st2) →
      ∀ i ∈ es, ∃ t, i.path = pp ++ t) :
    ∀ (xs : List JsValue) (p : List PathSeg) (i0 st : Nat),
      ∀ i ∈ (parseElemsWith pv xs p i0 st).2.1, ∃ t, i.path = p ++ t := by
  intro xs
  induction xs with
  | nil => intro p i0 st i hi; simp [parseElemsWith] at hi
  | cons x rest ih =>
      intro p i0 st i hi
      unfold parseElemsWith at hi
      rcases hx : pv x (p ++ [.idx i0]) st with ⟨res, st9⟩
      rcases res with e | d
      · rw [hx] at hi
        simp only [List.mem_append] at hi
        rcases hi with hi | hi
        · rcases hpv x (p ++ [.idx i0]) st e st9 hx i hi with ⟨t, ht⟩
          exact ⟨.idx i0 :: t, by simpa using ht⟩
        · exact ih p (i0 + 1) st9 i hi
      · rw [hx] at hi
        simp only at hi
        exact ih p (i0 + 1) st9 i hi

mutual

theorem parseVal_error_paths : ∀ (s : Schema) (v : JsValue) (p : List PathSeg)
    (st : Nat) (es : List Issue) (st2 : Nat),
    parseVal s v p st = (.error es, st2) →
    es ≠ [] ∧ ∀ i ∈ es, ∃ t, i.path = p ++ t
  | .string o, v, p, st, es, st2, h => by
      simp only [parseVal] at h
      have h1 : parseString o v p = .error es := congrArg Prod.fst h
      obtain ⟨hne, hp⟩ := parseString_error_paths h1
      exact ⟨hne, fun i hi => ⟨[], by simp [hp i hi]⟩⟩
  | .number o, v, p, st, es, st2, h => by
      simp only [parseVal] at h
      have h1 : parseNumber o v p = .error es := congrArg Prod.fst h
      obtain ⟨hne, hp⟩ := parseNumber_error_paths h1
      exact ⟨hne, fun i hi => ⟨[], by simp [hp i hi]⟩⟩
  | .boolean, v, p, st, es, st2, h => by
      simp only [parseVal] at h
      have h1 : parseBoolean v p = .error es := congrArg Prod.fst h
      obtain ⟨hne, hp⟩ := parseBoolean_error_paths h1
      exact ⟨hne, fun i hi => ⟨[], by simp [hp i hi]⟩⟩
  | .literal lv, v, p, st, es, st2, h => by
      simp only [parseVal] at h
      have h1 : parseLiteral lv v p = .error es := congrArg Prod.fst h
      obtain ⟨hne, hp⟩ := parseLiteral_error_paths h1
      exact ⟨hne, fun i hi => ⟨[], by simp [hp i hi]⟩⟩
  | .enum os, v, p, st, es, st2, h => by
      simp only [parseVal] at h
      have h1 : parseEnum os v p = .error es := congrArg Prod.fst h
      obtain ⟨hne, hp⟩ := parseEnum_error_paths h1
      exact ⟨hne, fun i hi => ⟨[], by simp [hp i hi]⟩⟩
  | .object shape uk, v, p, st, es, st2, h => by
      simp only [parseVal] at h
      rcases v with _ | _ | b | n | s | elems | fields
      case obj =>
        simp only at h
        have h1 : finishObject shape uk fields (parseFields shape fields p st).1
            (parseFields shape fields p st).2.1 p = .error es := congrArg Prod.fst h
        rcases finishObject_error h1 with ⟨hne, hp⟩ | ⟨heq, hne⟩
        · exact ⟨hne, fun i hi => ⟨[], by simp [hp i hi]⟩⟩
        · subst heq
          exact ⟨hne, fun i hi => parseFields_error_paths shape fields p st i hi⟩
      all_goals
        have h1 := congrArg Prod.fst h
        simp only at h1
        rw [Except.error.injEq] at h1
        subst h1
        exact ⟨by simp, by simp⟩
  | .array el o, v, p, st, es, st2, h => by
      simp only [parseVal] at h
      rcases v with _ | _ | b | n | s | elems | fields
      case arr =>
        simp only at h
        rcases hl : arrayLengthIssue? o elems.length p with _ | i
        · rw [hl] at h
          simp only at h
          split at h
          · exact absurd (congrArg Prod.fst h) (by simp)
          · next hne =>
              have h1 := congrArg Prod.fst h
              simp only at h1
              rw [Except.error.injEq] at h1
              subst h1
              refine ⟨by simpa using hne, ?_⟩
              intro i hi
              exact parseElemsWith_error_paths
                (fun x pp stx esx stx2 hx =>
                  (parseVal_error_paths el x pp stx esx stx2 hx).2)
                elems p 0 st i hi
        · rw [hl] at h
          simp only at h
          have h1 := congrArg Prod.fst h
          simp only at h1
          rw [Except.error.injEq] at h1
          subst h1
          exact ⟨by simp, fun j hj => ⟨[], by
            simp at hj
            simp [hj, arrayLengthIssue?_path hl]⟩⟩
      all_goals
        have h1 := congrArg Prod.fst h
        simp only at h1
        rw [Except.error.injEq] at h1
        subst h1
        exact ⟨by simp, by simp⟩
  | .union os, v, p, st, es, st2, h => by
      simp only [parseVal] at h
      have h1 := parseUnionList_error os v p st es st2 h
      subst h1
      exact ⟨by simp, fun i hi => ⟨[], by simp at hi; simp [hi]⟩⟩
  | .optional inner, v, p, st, es, st2, h => by
      simp only [parseVal] at h
      split at h
      · exact absurd (congrArg Prod.fst h) (by simp)
      · exact parseVal_error_paths inner v p st es st2 h
  | .nullable inner, v, p, st, es, st2, h => by
      simp only [parseVal] at h
      split at h
      · exact absurd (congrArg Prod.fst h) (by simp)
      · exact parseVal_error_paths inner v p st es st2 h
  | .nullish inner, v, p, st, es, st2, h => by
      simp only [parseVal] at h
      split at h
      · exact absurd (congrArg Prod.fst h) (by simp)
      · exact parseVal_error_paths inner v p st es st2 h
  | .withDefault inner dv, v, p, st, es, st2, h => by
      simp only [parseVal] at h
      split at h
      · split at h
        · exact absurd (congrArg Prod.fst h) (by simp)
        · exact absurd (congrArg Prod.fst h) (by simp)
      · exact parseVal_error_paths inner v p st es st2 h
  | .transform inner fn, v, p, st, es, st2, h => by
      simp only [parseVal] at h
      rcases hx : parseVal inner v p st with ⟨res, st9⟩
      rw [hx] at h
      rcases res with e | d
      · simp only at h
        have h1 := congrArg Prod.fst h
        simp only at h1
        rw [Except.error.injEq] at h1
        subst h1
        exact parseVal_error_paths inner v p st e st9 hx
      · simp only at h
        exact absurd (congrArg Prod.fst h) (by simp)

theorem parseFields_error_paths : ∀ (shape : List (String × Schema))
    (fields : List (String × JsValue)) (p : List PathSeg) (st : Nat)
    (i : Issue), i ∈ (parseFields shape fields p st).2.1 →
    ∃ t, i.path = p ++ t
  | [], fields, p, st, i, hi => by simp [parseFields] at hi
  | (key, sch) :: rest, fields, p, st, i, hi => by
      unfold parseFields at hi
      rcases hx : parseVal sch (objGet fields key) (p ++ [.key key]) st
        with ⟨res, st9⟩
      rw [hx] at hi
      rcases res with e | d
      · simp only [List.mem_append] at hi
        rcases hi with hi | hi
        · rcases (parseVal_error_paths sch (objGet fields key)
            (p ++ [.key key]) st e st9 hx).2 i hi with ⟨t, ht⟩
          exact ⟨.key key :: t, by simpa using ht⟩
        · exact parseFields_error_paths rest fields p st9 i hi
      · simp only at hi
        exact parseFields_error_paths rest fields p st9 i hi

theorem parseUnionList_error : ∀ (os : List Schema) (v : JsValue)
    (p : List PathSeg) (st : Nat) (es : List Issue) (st2 : Nat),
    parseUnionList os v p st = (.error es, st2) →
    es = [{ code := .invalid_union, path := p }]
  | [], v, p, st, es, st2, h => by
      simp only [parseUnionList] at h
      have h1 := congrArg Prod.fst h
      simp only at h1
      rw [Except.error.injEq] at h1
      exact h1.symm
  | s :: rest, v, p, st, es, st2, h => by
      simp only [parseUnionList] at h
      rcases hx : parseVal s v p st with ⟨res, st9⟩
      rw [hx] at h
      rcases res with e | d
      · simp only at h
        exact parseUnionList_error rest v p st9 es st2 h
      · simp only at h
        exact absurd (congrArg Prod.fst h) (by simp)

end

/-- C4: for `array(object({name: string}))`, parsing
`[{name: "ok"}, {name: 123}]` fails with exactly one issue, whose path is
`[1, "name"]`: the array extends the path with the element index, the object
with the field name, and the sibling element contributes nothing. -/
theorem c4_array_object_path :
    Schema.safeParse (.array (.object [("name", .string {})] .strip) {})
      (.arr [.obj [("name", .str "ok")], .obj [("name", .num (.finite 123))]])
      = .error [{ code := .invalid_type, path := [.idx 1, .key "name"],
                  expected := some "string", received := some "number" }] := rfl

/-- C5: a union tries its candidates in order against the original value and
path: a succeeding head determines the result, a failing head is skipped
with its error discarded, an empty candidate list yields the single generic
`invalid_union` issue at the current path — so any union on which every
candidate fails reports exactly that one issue, and in particular
`union([string(), number()])` on `true` fails with exactly one
`invalid_union` issue. -/
theorem c5_union_first_success_single_issue :
    (∀ (s0 : Schema) (rest : List Schema) (v : JsValue) (p : List PathSeg)
        (st : Nat) (d : JsValue) (st2 : Nat),
        parseVal s0 v p st = (.ok d, st2) →
        parseVal (.union (s0 :: rest)) v p st = (.ok d, st2)) ∧
    (∀ (s0 : Schema) (rest : List Schema) (v : JsValue) (p : List PathSeg)
        (st : Nat) (es : List Issue) (st2 : Nat),
        parseVal s0 v p st = (.error es, st2) →
        parseVal (.union (s0 :: rest)) v p st = parseVal (.union rest) v p st2) ∧
    (∀ (os : List Schema) (v : JsValue) (p : List PathSeg) (st : Nat)
        (es : List Issue) (st2 : Nat),
        parseVal (.union os) v p st = (.error es, st2) →
        es = [{ code := .invalid_union, path := p }]) ∧
    Schema.safeParse (.union [.string {}, .number {}]) (.bool true)
      = .error [{ code := .invalid_union, path := [] }] := by
  refine ⟨?_, ?_, ?_, rfl⟩
  · intro s0 rest v p st d st2 h
    simp [parseVal, parseUnionList, h]
  · intro s0 rest v p st es st2 h
    simp [parseVal, parseUnionList, h]
  · intro os v p st es st2 h
    exact parseUnionList_error os v p st es st2 (by simpa [parseVal] using h)

/-- Witness for C5 at concrete inputs: the failing head `number()` of
`union([number(), string()])` on `"x"` is skipped, the succeeding candidate
`string()` wins, and the all-fail case on `true` yields the single
`invalid_union` issue. -/
theorem c5_union_witness :
    (parseVal (.union [.number {}, .string {}]) (.str "x") [] 0
      = parseVal (.union [.string {}]) (.str "x") [] 0) ∧
    (parseVal (.union [.string {}]) (.str "x") [] 0 = (.ok (.str "x"), 0)) ∧
    ([{ code := .invalid_union, path := ([] : List PathSeg) } ] : List Issue)
      = [{ code := .invalid_union, path := ([] : List PathSeg) }] := by
  have h := c5_union_first_success_single_issue
  refine ⟨h.2.1 (.number {}) [.string {}] (.str "x") [] 0
      [{ code := .invalid_type, path := [], expected := some "number",
         received := some "string" }] 0 rfl, ?_, ?_⟩
  · exact h.1 (.string {}) [] (.str "x") [] 0 (.str "x") 0 rfl
  · exact h.2.2.1 [.string {}, .number {}] (.bool true) [] 0
      [{ code := .invalid_union, path := [] }] 0 rfl

/-- C6: a `default(d)` wrapper short-circuits absent (`undefined`) input to
success with the default — the fixed value, or the generator invoked freshly
on each parse (each invocation advances the generator state, so two
successive absent-input parses with the counter generator yield 1 then 2) —
and delegates any other input to the wrapped validator unchanged;
`object({x: number().default(5)})` maps `{}` to `{x: 5}` and `{x: 10}` to
`{x: 10}`. -/
theorem c6_default_wrapper :
    (∀ (inner : Schema) (d : JsValue) (p : List PathSeg) (st : Nat),
        parseVal (.withDefault inner (.fixed d)) .undefined p st = (.ok d, st)) ∧
    (∀ (inner : Schema) (f : Nat → JsValue) (p : List PathSeg) (st : Nat),
        parseVal (.withDefault inner (.gen f)) .undefined p st
          = (.ok (f st), st + 1)) ∧
    (∀ (inner : Schema) (dv : DefaultValue) (v : JsValue) (p : List PathSeg)
        (st : Nat), v.isUndefined = false →
        parseVal (.withDefault inner dv) v p st = parseVal inner v p st) ∧
    Schema.safeParse
        (.object [("x", .withDefault (.number {}) (.fixed (.num (.finite 5))))]
          .strip) (.obj [])
      = .ok (.obj [("x", .num (.finite 5))]) ∧
    Schema.safeParse
        (.object [("x", .withDefault (.number {}) (.fixed (.num (.finite 5))))]
          .strip) (.obj [("x", .num (.finite 10))])
      = .ok (.obj [("x", .num (.finite 10))]) ∧
    Schema.safeParseFrom
        (.withDefault (.number {}) (.gen fun n => .num (.finite (n + 1))))
        .undefined 0 = (.ok (.num (.finite 1)), 1) ∧
    Schema.safeParseFrom
        (.withDefault (.number {}) (.gen fun n => .num (.finite (n + 1))))
        .undefined 1 = (.ok (.num (.finite 2)), 2) := by
  refine ⟨?_, ?_, ?_, rfl, rfl, ?_, ?_⟩
  · intro inner d p st
    simp [parseVal, JsValue.isUndefined]
  · intro inner f p st
    simp [parseVal, JsValue.isUndefined]
  · intro inner dv v p st h
    cases v
    case undefined => simp [JsValue.isUndefined] at h
    all_goals simp [parseVal, JsValue.isUndefined]
  · simp [Schema.safeParseFrom, parseVal, JsValue.isUndefined]
  · simp [Schema.safeParseFrom, parseVal, JsValue.isUndefined]
    norm_num

/-- Witness for C6: delegation on non-absent input at a concrete instance. -/
theorem c6_default_witness :
    parseVal (.withDefault (.number {}) (.fixed (.num (.finite 5))))
      (.num (.finite 10)) [] 0 = parseVal (.number {}) (.num (.finite 10)) [] 0 := by
  have h := c6_default_wrapper
  exact h.2.2.1 (.number {}) (.fixed (.num (.finite 5))) (.num (.finite 10)) [] 0 rfl

/-- C10: an array validator with an exact length `n` rejects any array whose
length differs from `n` — shorter or longer — with the single issue
`too_small`, `minimum = n`, `inclusive = true`; no `too_big` issue is ever
produced by an exact-length violation. -/
theorem c10_array_exact_length (el : Schema) (o : ArrayOptions) (n : Nat)
    (xs : List JsValue) (p : List PathSeg) (st : Nat)
    (h : xs.length ≠ n) :
    parseVal (.array el (o.length n)) (.arr xs) p st
      = (.error [{ code := .too_small, path := p,
                   minimum := some (.finite (n : ℚ)), inclusive := some true,
                   expected := some "array" }], st) ∧
    ∀ i ∈ ((parseVal (.array el (o.length n)) (.arr xs) p st).1).issues,
      i.code ≠ .too_big := by
  have hlen : arrayLengthIssue? (o.length n) xs.length p
      = some { code := .too_small, path := p,
               minimum := some (.finite (n : ℚ)), inclusive := some true,
               expected := some "array" } := by
    simp [arrayLengthIssue?, ArrayOptions.length, h]
  constructor
  · simp [parseVal, hlen]
  · intro i hi
    simp [parseVal, hlen, ParseResult.issues] at hi
    simp [hi]

/-- Witness for C10: a 1-element array against an exact length of 2. -/
theorem c10_array_exact_length_witness :
    parseVal (.array (.string {}) (({} : ArrayOptions).length 2))
        (.arr [.str "a"]) [] 0
      = (.error [{ code := .too_small, path := [],
                   minimum := some (.finite (2 : ℚ)), inclusive := some true,
                   expected := some "array" }], 0) := by
  exact (c10_array_exact_length (.string {}) {} 2 [.str "a"] [] 0 (by decide)).1

/-- C1 counterexample: for `object({a: string}).strict()` on
`{a: 1, b: "y"}` the field `a` fails, the input has the unknown key `b`,
yet the aggregated error is exactly the one unrecognized-keys issue — the
field-level issue is dropped, so the error does not contain both sets. -/
theorem c1_counterexample :
    (parseVal (.string {}) (.num (.finite 1)) [.key "a"] 0).1
      = .error [{ code := .invalid_type, path := [.key "a"],
                  expected := some "string", received := some "number" }] ∧
    Schema.safeParse (.object [("a", .string {})] .strict)
        (.obj [("a", .num (.finite 1)), ("b", .str "y")])
      = .error [{ code := .unrecognized_keys, path := [],
                  message := some "Unrecognized keys: b" }] ∧
    ((Schema.safeParse (.object [("a", .string {})] .strict)
        (.obj [("a", .num (.finite 1)), ("b", .str "y")])).issues.map
          Issue.code) = [.unrecognized_keys] :=
  ⟨rfl, rfl, rfl⟩

/-- C1 as amended: under `strict`, whenever the input has keys outside the
shape, the parse returns exactly one `unrecognized_keys` issue listing all
of the unknown keys, and any field-level issues are discarded; both kinds
of issues are never merged (field-level issues are returned only when no
unknown key is present). -/
theorem c1_strict_unknown_keys_win (shape : List (String × Schema))
    (fields : List (String × JsValue)) (p : List PathSeg) (st : Nat)
    (h : unknownKeysOf shape fields ≠ []) :
    (parseVal (.object shape .strict) (.obj fields) p st).1
      = .error [{ code := .unrecognized_keys, path := p,
                  message := some ("Unrecognized keys: " ++
                    String.intercalate ", " (unknownKeysOf shape fields)) }] := by
  have hne : (unknownKeysOf shape fields).isEmpty = false := by
    simpa [List.isEmpty_iff] using h
  simp [parseVal, finishObject, hne]

/-- Witness for C1 as amended: the schema of the counterexample, where a
field-level failure and an unknown key are both present. -/
theorem c1_strict_unknown_keys_win_witness :
    (parseVal (.object [("a", .string {})] .strict)
        (.obj [("a", .num (.finite 1)), ("b", .str "y")]) [] 0).1
      = .error [{ code := .unrecognized_keys, path := [],
                  message := some ("Unrecognized keys: " ++
                    String.intercalate ", "
                      (unknownKeysOf [("a", Schema.string {})]
                        [("a", .num (.finite 1)), ("b", .str "y")])) }] := by
  exact c1_strict_unknown_keys_win [("a", .string {})]
    [("a", .num (.finite 1)), ("b", .str "y")] [] 0 (by decide)

theorem stringMaxIssue?_code {o : StringOptions} {s p i}
    (h : stringMaxIssue? o s p = some i) : i.code = .too_big := by
  unfold stringMaxIssue? at h
  split at h
  · split at h
    · cases h; rfl
    · cases h
  · cases h

theorem stringPatternIssue?_code {o : StringOptions} {s p i}
    (h : stringPatternIssue? o s p = some i) : i.code = .invalid_string := by
  unfold stringPatternIssue? at h
  split at h
  · split at h
    · cases h; rfl
    · cases h
  · cases h

theorem stringCustomIssue?_code {cvs : List CustomValidator} {s p i}
    (h : stringCustomIssue? cvs s p = some i) : i.code = .custom := by
  induction cvs with
  | nil => cases h
  | cons cv rest ih =>
      unfold stringCustomIssue? at h
      split at h
      · cases h; rfl
      · exact ih h

/-- A string parse whose min-length check passes never reports `too_small`. -/
theorem parseString_no_min_issue {o : StringOptions} {s : String}
    {p : List PathSeg} (h : stringMinIssue? o s p = none) :
    ∀ i ∈ (parseString o (.str s) p).issues, i.code ≠ .too_small := by
  intro i hi
  simp only [parseString] at hi
  split at hi
  · next i1 heq =>
      rw [h] at heq
      cases heq
  · split at hi
    · next i1 heq =>
        simp [ParseResult.issues] at hi
        subst hi
        simp [stringMaxIssue?_code heq]
    · split at hi
      · next i1 heq =>
          simp [ParseResult.issues] at hi
          subst hi
          simp [stringPatternIssue?_code heq]
      · split at hi
        · next i1 heq =>
            simp [ParseResult.issues] at hi
            subst hi
            simp [stringCustomIssue?_code heq]
        · simp [ParseResult.issues] at hi

theorem numberIntIssue?_code {o : NumberOptions} {n p i}
    (h : numberIntIssue? o n p = some i) : i.code = .invalid_type := by
  unfold numberIntIssue? at h
  split at h
  · cases h; rfl
  · cases h

theorem numberMaxIssue?_code {o : NumberOptions} {n p i}
    (h : numberMaxIssue? o n p = some i) : i.code = .too_big := by
  unfold numberMaxIssue? at h
  split at h
  · split at h
    · cases h; rfl
    · cases h
  · cases h

/-- A number parse whose minimum check passes never reports `too_small`. -/
theorem parseNumber_no_min_issue {o : NumberOptions} {n : JsNumber}
    {p : List PathSeg} (h : numberMinIssue? o n p = none) :
    ∀ i ∈ (parseNumber o (.num n) p).issues, i.code ≠ .too_small := by
  intro i hi
  simp only [parseNumber] at hi
  split at hi
  · simp [ParseResult.issues] at hi
    subst hi
    simp
  · split at hi
    · next i1 heq =>
        simp [ParseResult.issues] at hi
        subst hi
        simp [numberIntIssue?_code heq]
    · split at hi
      · next i1 heq =>
          rw [h] at heq
          cases heq
      · split at hi
        · next i1 heq =>
            simp [ParseResult.issues] at hi
            subst hi
            simp [numberMaxIssue?_code heq]
        · simp [ParseResult.issues] at hi

/-- C3 counterexample: for `object({A: string, B: string}).strict()` on
`{A: 1, B: 2, C: 3}` both fields' values are invalid, yet the single
failure contains exactly one issue, `unrecognized_keys` at the root path —
no issue with path `["A"]` or `["B"]` is present. -/
theorem c3_counterexample :
    ((parseVal (.string {}) (.num (.finite 1)) [.key "A"] 0).1).success
      = false ∧
    ((parseVal (.string {}) (.num (.finite 2)) [.key "B"] 0).1).success
      = false ∧
    ((Schema.safeParse (.object [("A", .string {}), ("B", .string {})] .strict)
        (.obj [("A", .num (.finite 1)), ("B", .num (.finite 2)),
               ("C", .num (.finite 3))])).issues.map Issue.code)
      = [.unrecognized_keys] ∧
    ((Schema.safeParse (.object [("A", .string {}), ("B", .string {})] .strict)
        (.obj [("A", .num (.finite 1)), ("B", .num (.finite 2)),
               ("C", .num (.finite 3))])).issues.map Issue.path)
      = [[]] :=
  ⟨rfl, rfl, rfl, rfl⟩

/-- C3 as amended: for an object validator with shape fields `a` and `b`
whose per-field parses both fail, `safeParse` returns exactly one failure
whose aggregated error is the concatenation of both fields' issues — so it
has at least two issues, at least one with first path segment `a` and one
with first path segment `b` (an issue's path is exactly `[a]` when the
field validator reports at its own root) — provided the policy is not
strict with unknown keys present in the input (in that case the
unrecognized-keys issue replaces everything, see the C1 theorems). -/
theorem c3_object_aggregates_both_fields (a b : String) (sa sb : Schema)
    (fields : List (String × JsValue)) (uk : UnknownKeys)
    (esA esB : List Issue) (stA stB : Nat)
    (hA : parseVal sa (objGet fields a) [.key a] 0 = (.error esA, stA))
    (hB : parseVal sb (objGet fields b) [.key b] stA = (.error esB, stB))
    (hs : uk = .strict → unknownKeysOf [(a, sa), (b, sb)] fields = []) :
    Schema.safeParse (.object [(a, sa), (b, sb)] uk) (.obj fields)
      = .error (esA ++ esB) ∧
    2 ≤ (esA ++ esB).length ∧
    (∃ i ∈ esA ++ esB, ∃ t, i.path = .key a :: t) ∧
    (∃ i ∈ esA ++ esB, ∃ t, i.path = .key b :: t) := by
  have hAp := parseVal_error_paths sa (objGet fields a) [.key a] 0 esA stA hA
  have hBp := parseVal_error_paths sb (objGet fields b) [.key b] stA esB stB hB
  have hfields : parseFields [(a, sa), (b, sb)] fields [] 0
      = ([], esA ++ esB, stB) := by
    simp [parseFields, hA, hB]
  have hne : (esA ++ esB).isEmpty = false := by
    have hx : esA ++ esB ≠ [] := by
      intro hc
      exact hAp.1 (List.append_eq_nil.mp hc).1
    simpa [List.isEmpty_iff] using hx
  refine ⟨?_, ?_, ?_, ?_⟩
  · simp only [Schema.safeParse, parseVal, hfields]
    cases uk
    case strip => simp [finishObject, hne]
    case passthrough => simp [finishObject, hne]
    case strict => simp [finishObject, hs rfl, hne]
  · have h1 : 0 < esA.length := List.length_pos.mpr hAp.1
    have h2 : 0 < esB.length := List.length_pos.mpr hBp.1
    simp only [List.length_append]
    omega
  · obtain ⟨i, hi⟩ := List.exists_mem_of_ne_nil esA hAp.1
    obtain ⟨t, ht⟩ := hAp.2 i hi
    exact ⟨i, List.mem_append_left _ hi, t, by simpa using ht⟩
  · obtain ⟨i, hi⟩ := List.exists_mem_of_ne_nil esB hBp.1
    obtain ⟨t, ht⟩ := hBp.2 i hi
    exact ⟨i, List.mem_append_right _ hi, t, by simpa using ht⟩

/-- Witness for C3 as amended: `object({A: string, B: string})` (default
strip policy) on `{A: 1, B: 2}` aggregates the two type-mismatch issues. -/
theorem c3_object_aggregation_witness :
    Schema.safeParse (.object [("A", .string {}), ("B", .string {})] .strip)
        (.obj [("A", .num (.finite 1)), ("B", .num (.finite 2))])
      = .error ([{ code := .invalid_type, path := [.key "A"],
                   expected := some "string", received := some "number" }] ++
                [{ code := .invalid_type, path := [.key "B"],
                   expected := some "string", received := some "number" }]) :=
  (c3_object_aggregates_both_fields "A" "B" (.string {}) (.string {})
    [("A", .num (.finite 1)), ("B", .num (.finite 2))] .strip
    [{ code := .invalid_type, path := [.key "A"],
       expected := some "string", received := some "number" }]
    [{ code := .invalid_type, path := [.key "B"],
       expected := some "string", received := some "number" }]
    0 0 rfl rfl (fun h => nomatch h)).1

/-- The `baseTypes` computation of `addNullToType`: a scalar `type` keyword
as a one-element list, an array keyword as is. -/
def JsonTypeVal.toList : JsonTypeVal → List JsonSchemaType
  | .single t => [t]
  | .list ts => ts

/-- C7 counterexample: for `nullable(object({a: string}))` the inner mapping
carries `properties` and `required`, but the emitted mapping only keeps the
`type` array `[object, null]` — the rest of the inner mapping is *not*
carried over. -/
theorem c7_counterexample :
    (convertSchema (.object [("a", .string {})] .strip)).base.properties?
      = some [("a", convertStringType {})] ∧
    (convertSchema (.object [("a", .string {})] .strip)).base.required?
      = some ["a"] ∧
    (toJsonSchema (.nullable (.object [("a", .string {})] .strip))).base.typ?
      = some (.list [.object, .null]) ∧
    (toJsonSchema (.nullable (.object [("a", .string {})] .strip))).base.properties?
      = none ∧
    (toJsonSchema (.nullable (.object [("a", .string {})] .strip))).base.required?
      = none :=
  ⟨rfl, rfl, rfl, rfl, rfl⟩

/-- C7 as amended: for a nullable/nullish wrapper, `toJsonSchema` applies
`addNullToType` to the inner mapping; whenever the inner mapping has a
`type` keyword (scalar or already an array), the result's `type` is the
inner types with `null` appended, and exactly the keywords `minLength`,
`maxLength`, `pattern`, `format`, `minimum`, `maximum`, `enum` and `const`
are carried over — `properties`, `required`, `items`, `minItems`,
`maxItems`, `default`, `anyOf` are dropped; without a `type` keyword it
falls back to `anyOf: [inner, {type: null}]`. -/
theorem c7_add_null_to_type (j : JsonSchema) :
    (∀ tv, j.base.typ? = some tv →
      (addNullToType j).base.typ? = some (.list (tv.toList ++ [.null])) ∧
      (addNullToType j).base.minLength? = j.base.minLength? ∧
      (addNullToType j).base.maxLength? = j.base.maxLength? ∧
      (addNullToType j).base.pattern? = j.base.pattern? ∧
      (addNullToType j).base.format? = j.base.format? ∧
      (addNullToType j).base.minimum? = j.base.minimum? ∧
      (addNullToType j).base.maximum? = j.base.maximum? ∧
      (addNullToType j).base.enum? = j.base.enum? ∧
      (addNullToType j).base.const? = j.base.const? ∧
      (addNullToType j).base.properties? = none ∧
      (addNullToType j).base.required? = none ∧
      (addNullToType j).base.items? = none ∧
      (addNullToType j).base.minItems? = none ∧
      (addNullToType j).base.maxItems? = none ∧
      (addNullToType j).base.default? = none ∧
      (addNullToType j).base.anyOf? = none) ∧
    (j.base.typ? = none →
      addNullToType j
        = .mk { anyOf? := some [j, .mk { typ? := some (.single .null) }] }) ∧
    (∀ inner : Schema,
      toJsonSchema (.nullable inner) = addNullToType (toJsonSchema inner) ∧
      toJsonSchema (.nullish inner) = addNullToType (toJsonSchema inner)) := by
  obtain ⟨b⟩ := j
  refine ⟨?_, ?_, ?_⟩
  · intro tv htv
    simp only [JsonSchema.base] at htv
    cases tv <;>
      simp [addNullToType, JsonSchema.base, JsonTypeVal.toList, htv]
  · intro htv
    simp only [JsonSchema.base] at htv
    simp [addNullToType, JsonSchema.base, htv]
  · intro inner
    exact ⟨by simp [toJsonSchema, convertSchema],
      by simp [toJsonSchema, convertSchema]⟩

/-- Witness for C7 as amended: the string mapping (scalar `type`) gets
`[string, null]`, and the bare document without `type` falls back to
`anyOf`. -/
theorem c7_add_null_witness :
    (addNullToType (convertStringType {})).base.typ?
      = some (.list ((JsonTypeVal.single .string).toList ++ [.null])) ∧
    addNullToType (.mk {})
      = .mk { anyOf? := some [.mk {}, .mk { typ? := some (.single .null) }] } :=
  ⟨((c7_add_null_to_type (convertStringType {})).1 (.single .string) rfl).1,
   (c7_add_null_to_type (.mk {})).2.1 rfl⟩

/-- C8: `positive()` on any number validator sets the inclusive minimum to
`Number.MIN_VALUE` — the smallest representable positive value, not zero —
so parsing `0` fails with a `too_small` issue whose minimum is that value,
while every finite number at least `Number.MIN_VALUE` passes the
lower-bound check (the parse never reports `too_small`). -/
theorem c8_positive_smallest_positive (o : NumberOptions) (p : List PathSeg)
    (st : Nat) :
    (o.positive.minimum = some (.finite minValueQ) ∧ 0 < minValueQ) ∧
    parseVal (.number o.positive) (.num (.finite 0)) p st
      = (.error [{ code := .too_small, path := p,
                   minimum := some (.finite minValueQ),
                   expected := some "number" }], st) ∧
    (∀ q : ℚ, minValueQ ≤ q →
      ∀ i ∈ ((parseVal (.number o.positive) (.num (.finite q)) p st).1).issues,
        i.code ≠ .too_small) := by
  have h0 : (0 : ℚ) < minValueQ := by decide
  refine ⟨⟨rfl, h0⟩, ?_, ?_⟩
  · have hint : numberIntIssue? o.positive (.finite 0) p = none := by
      simp [numberIntIssue?, JsNumber.isInteger]
    have hmin : numberMinIssue? o.positive (.finite 0) p
        = some { code := .too_small, path := p,
                 minimum := some (.finite minValueQ),
                 expected := some "number" } := by
      simp [numberMinIssue?, NumberOptions.positive, JsNumber.jsLt,
        decide_eq_true h0]
    simp [parseVal, parseNumber, JsNumber.isNaN, JsNumber.isFinite, hint, hmin]
  · intro q hq i hi
    have hmin : numberMinIssue? o.positive (.finite q) p = none := by
      simp [numberMinIssue?, NumberOptions.positive, JsNumber.jsLt]
      exact hq
    have := parseNumber_no_min_issue hmin i (by simpa [parseVal] using hi)
    exact this

/-- Witness for C8: with an integer constraint, parsing `1/2` (which is at
least `Number.MIN_VALUE`) fails with `invalid_type`, not `too_small`. -/
theorem c8_positive_witness :
    minValueQ ≤ mkRat 1 2 ∧
    ({ code := .invalid_type, path := ([] : List PathSeg),
       expected := some "integer", received := some "float" } : Issue).code
      ≠ .too_small := by
  have h := c8_positive_smallest_positive { isInt := true } [] 0
  refine ⟨by decide, ?_⟩
  refine h.2.2 (mkRat 1 2) (by decide)
    { code := .invalid_type, path := [], expected := some "integer",
      received := some "float" } ?_
  exact List.mem_singleton.mpr rfl

/-- A string parse with a set min-length check reports `too_small` exactly
when the string is shorter than the bound. -/
theorem parseString_too_small_iff {o : StringOptions} {m : Nat} {s : String}
    {p : List PathSeg} (h : o.minLength = some m) :
    (∃ i ∈ (parseString o (.str s) p).issues, i.code = .too_small)
      ↔ s.length < m := by
  constructor
  · intro hex
    by_contra hlt
    have hnone : stringMinIssue? o s p = none := by
      simp [stringMinIssue?, h, hlt]
    obtain ⟨i, hi, hc⟩ := hex
    exact parseString_no_min_issue hnone i hi hc
  · intro hlt
    have hsome : stringMinIssue? o s p
        = some { code := .too_small, path := p,
                 minimum := some (.finite (m : ℚ)), expected := some "string" } := by
      simp [stringMinIssue?, h, hlt]
    refine ⟨{ code := .too_small, path := p, minimum := some (.finite (m : ℚ)),
              expected := some "string" }, ?_, rfl⟩
    simp [parseString, hsome, ParseResult.issues]

/-- C9: `.min(a)` then `.min(b)` on a string validator keeps only `b` as the
minimum length (last write wins, not additive) and leaves every other
configuration field unchanged, so the combined validator reports
`too_small` exactly when the input is shorter than `b`; and the validator
the calls started from is an unchanged value — in particular a base
validator without a minimum never reports `too_small` when reused
independently. -/
theorem c9_string_min_last_write_wins (o : StringOptions) (a b : Nat)
    (s : String) (p : List PathSeg) :
    ((o.min a).min b).minLength = some b ∧
    ((o.min a).min b).maxLength = o.maxLength ∧
    ((o.min a).min b).pattern = o.pattern ∧
    ((o.min a).min b).format = o.format ∧
    ((o.min a).min b).customValidators = o.customValidators ∧
    ((∃ i ∈ (parseString ((o.min a).min b) (.str s) p).issues,
        i.code = .too_small) ↔ s.length < b) ∧
    (o.minLength = none →
      ∀ i ∈ (parseString o (.str s) p).issues, i.code ≠ .too_small) := by
  refine ⟨rfl, rfl, rfl, rfl, rfl, ?_, ?_⟩
  · exact parseString_too_small_iff rfl
  · intro hnone
    exact parseString_no_min_issue (by simp [stringMinIssue?, hnone])

/-- Witness for C9: `.min(3).min(5)` on `"abcd"` reports `too_small`
(4 < 5, even though 4 ≥ 3), and the base validator accepts `""`. -/
theorem c9_string_min_witness :
    (∃ i ∈ (parseString ((({} : StringOptions).min 3).min 5)
        (.str "abcd") []).issues, i.code = .too_small) ∧
    (parseString ({} : StringOptions) (.str "") []).issues = [] := by
  have h := c9_string_min_last_write_wins {} 3 5 "abcd" []
  exact ⟨h.2.2.2.2.2.1.mpr (by decide), rfl⟩

/-- The schema of the round-trip property:
`object({id: number().int().positive(), email: string().email().optional()})`. -/
def roundTripSchema : Schema :=
  .object
    [("id", .number (({} : NumberOptions).int.positive)),
     ("email", .optional (.string (({} : StringOptions).email)))]
    .strip

/-- The validator rebuilt from the emitted interchange document. -/
def roundTripReconstructed : Schema :=
  fromJsonSchema (toJsonSchema roundTripSchema)

/-- C2: converting the round-trip schema to JSON Schema and back yields a
validator that accepts `{id: 1}` and `{id: 1, email: "a@b.com"}` and rejects
`{id: -1}` and `{id: 1, email: "not-an-email"}`, identically to the
original validator. -/
theorem c2_round_trip_behavior :
    ((roundTripSchema.safeParse
        (.obj [("id", .num (.finite 1))])).success = true ∧
     (roundTripReconstructed.safeParse
        (.obj [("id", .num (.finite 1))])).success = true) ∧
    ((roundTripSchema.safeParse
        (.obj [("id", .num (.finite 1)), ("email", .str "a@b.com")])).success
        = true ∧
     (roundTripReconstructed.safeParse
        (.obj [("id", .num (.finite 1)), ("email", .str "a@b.com")])).success
        = true) ∧
    ((roundTripSchema.safeParse
        (.obj [("id", .num (.finite (-1)))])).success = false ∧
     (roundTripReconstructed.safeParse
        (.obj [("id", .num (.finite (-1)))])).success = false) ∧
    ((roundTripSchema.safeParse
        (.obj [("id", .num (.finite 1)),
               ("email", .str "not-an-email")])).success = false ∧
     (roundTripReconstructed.safeParse
        (.obj [("id", .num (.finite 1)),
               ("email", .str "not-an-email")])).success = false) :=
  ⟨⟨rfl, rfl⟩, ⟨rfl, rfl⟩, ⟨rfl, rfl⟩, ⟨rfl, rfl⟩⟩
